import Mathlib

/-!
The unifi-manager-mcp tool handlers and API client.

A shallow embedding of `internal/unifi/client.go` and `internal/mcp/server.go`.

* Go `error` values are represented by their message (`err.Error()`), since the
  handlers only ever format them with `%v` / `%w`.
* Go slices keep the distinction between the nil slice and an empty non-nil
  slice (`GoSlice`), because `encoding/json` serialises the former as `null`
  and the latter as `[]`.
* The standard library and the network are collected in `World`: request
  construction (`http.NewRequestWithContext`), the call of the HTTP client
  (`http.Client.Do`: its outcome, and the upstream requests it sends, which
  carry the parsed URL and include the redirects it follows), reading the
  body (`io.ReadAll`) and `json.Unmarshal` into each of the eight response
  envelopes.
* Every handler also returns the trace of the client methods it entered and
  of its calls of the HTTP client, in order.
-/

set_option autoImplicit false

namespace Unifi

/-! ## Go slices -/

/-- A Go slice: `nil` is the nil slice, `mk xs` a non-nil slice holding `xs`. -/
inductive GoSlice (α : Type) where
  | nil : GoSlice α
  | mk (xs : List α) : GoSlice α
  deriving DecidableEq, Repr

namespace GoSlice

variable {α : Type}

/-- The elements a `range` loop visits, in order. -/
def elems : GoSlice α → List α
  | nil => []
  | mk xs => xs

/-- Go `len(s)`. -/
def len (s : GoSlice α) : Nat := s.elems.length

/-- Go `append(s, a)`: the result is never the nil slice. -/
def append (s : GoSlice α) (a : α) : GoSlice α := mk (s.elems ++ [a])

/-- Go `s == nil`. -/
def isNil : GoSlice α → Bool
  | nil => true
  | mk _ => false

end GoSlice

/-! ## Records (client.go, lines 30-59) -/

/-- Site represents a UniFi site. -/
structure Site where
  ID : String
  Name : String
  Description : String
  deriving DecidableEq, Repr

/-- Host represents a UniFi host. -/
structure Host where
  ID : String
  Name : String
  SiteID : String
  Status : String
  deriving DecidableEq, Repr

/-- Device represents a UniFi device. (`Type_` is the Go field `Type`, a
reserved word here.) -/
structure Device where
  ID : String
  Name : String
  Type_ : String
  Status : String
  SiteID : String
  deriving DecidableEq, Repr

/-- Deployment represents a UniFi deployment. -/
structure Deployment where
  ID : String
  Name : String
  Status : String
  deriving DecidableEq, Repr

/-! ## HTTP -/

/-- Go `http.Header`, as an association list from header name to value. -/
abbrev Header := List (String × String)

/-- Go `Header.Set`: replaces whatever the key held. (Go stores the key in
canonical MIME case; header names are case-insensitive, so the name is kept as
the source spells it.) -/
def Header.Set (h : Header) (key value : String) : Header :=
  h.filter (fun kv => kv.1 != key) ++ [(key, value)]

/-- Go `Header.Get`. -/
def Header.Get (h : Header) (key : String) : String :=
  (h.lookup key).getD ""

/-- The request `doRequest` builds and hands to `httpClient.Do`, by what the
source gives it: the method and the URL string passed to
`http.NewRequestWithContext`, and the headers set on it. `URL` is that string
before `net/url` parses it; what goes upstream for the request is `World.sent`.
The body is always `nil` (`doRequest` passes `nil`). -/
structure Request where
  Method : String
  URL : String
  Header : Header
  deriving DecidableEq, Repr

/-- The parts of a Go `*http.Response` that `doRequest` reads. `Body` is the
outcome of `io.ReadAll(resp.Body)`: the bytes, or a read error. -/
structure Response where
  StatusCode : Int
  Body : Except String String

/-- An HTTP request as it goes upstream: its method and its URL as `net/http`
writes it from the parsed URL (the path percent-encoded, the fragment
dropped). -/
structure Sent where
  Method : String
  URL : String
  deriving DecidableEq, Repr

/-- The standard library and the network, as seen by `doRequest`. -/
structure World where
  /-- The error of `http.NewRequestWithContext(ctx, method, url, nil)`, if any. -/
  newRequestErr : String → String → Option String
  /-- The outcome of one call `c.httpClient.Do(req)`. -/
  Do : Request → Except String Response
  /-- The upstream requests the HTTP client sends during one call
  `c.httpClient.Do(req)`, in order. The client is `&http.Client{Timeout: 0}`,
  without `CheckRedirect`: it follows redirects, so one call can send several
  requests, and it sends none when it fails before the first. -/
  sent : Request → List Sent
  /-- The function `json.Unmarshal` into `struct { Data []Site }`, giving `Data`. -/
  unmarshalSites : String → Except String (GoSlice Site)
  /-- The function `json.Unmarshal` into `struct { Data Site }`. -/
  unmarshalSite : String → Except String Site
  /-- The function `json.Unmarshal` into `struct { Data []Host }`. -/
  unmarshalHosts : String → Except String (GoSlice Host)
  /-- The function `json.Unmarshal` into `struct { Data Host }`. -/
  unmarshalHost : String → Except String Host
  /-- The function `json.Unmarshal` into `struct { Data []Device }`. -/
  unmarshalDevices : String → Except String (GoSlice Device)
  /-- The function `json.Unmarshal` into `struct { Data Device }`. -/
  unmarshalDevice : String → Except String Device
  /-- The function `json.Unmarshal` into `struct { Data []Deployment }`. -/
  unmarshalDeployments : String → Except String (GoSlice Deployment)
  /-- The function `json.Unmarshal` into `struct { Data Deployment }`. -/
  unmarshalDeployment : String → Except String Deployment

/-- What a call did, in order: which client method was entered and which HTTP
request was handed to `httpClient.Do`. -/
inductive Event where
  | clientCall (method : String) : Event
  | httpDo (req : Request) : Event
  deriving DecidableEq, Repr

/-- The calls to `httpClient.Do` of a trace, in order, each by the request it
was given. -/
def doCalls : List Event → List Request
  | [] => []
  | Event.httpDo req :: rest => req :: doCalls rest
  | Event.clientCall _ :: rest => doCalls rest

/-- The upstream HTTP requests issued during a trace, in order: those the HTTP
client sends for each call to `httpClient.Do`. -/
def upstreamRequests (w : World) : List Event → List Sent
  | [] => []
  | Event.httpDo req :: rest => w.sent req ++ upstreamRequests w rest
  | Event.clientCall _ :: rest => upstreamRequests w rest

/-! ## API client (client.go) -/

/-- The constant `BaseURL`. -/
def BaseURL : String := "https://api.ui.com/v1"

/-- The client: an API key and a base URL (the `http.Client` lives in `World`). -/
structure Client where
  apiKey : String
  baseURL : String
  deriving DecidableEq, Repr

/-- NewClient creates a new UniFi Manager API client. -/
def NewClient (apiKey : String) : Client :=
  { apiKey := apiKey, baseURL := BaseURL }

/-- Go `fmt.Sprintf("%d", n)` for an `int`. -/
def fmtInt (n : Int) : String := toString n

/-- The request `doRequest` hands to `httpClient.Do`. -/
def Client.buildRequest (c : Client) (method path : String) : Request :=
  let url := c.baseURL ++ path
  let req : Request := { Method := method, URL := url, Header := [] }
  let req := { req with Header := req.Header.Set "X-API-KEY" c.apiKey }
  let req := { req with Header := req.Header.Set "Accept" "application/json" }
  let req := { req with Header := req.Header.Set "Content-Type" "application/json" }
  req

/-- doRequest performs an HTTP request to the API. `unmarshal` stands for
`json.Unmarshal(respBody, result)` at the type of `result`, which is never nil
at the call sites. -/
def Client.doRequest {α : Type} (c : Client) (w : World) (method path : String)
    (unmarshal : String → Except String α) : Except String α × List Event :=
  let url := c.baseURL ++ path
  match w.newRequestErr method url with
  | some err => (Except.error err, [])
  | none =>
    let req := c.buildRequest method path
    match w.Do req with
    | Except.error err => (Except.error err, [Event.httpDo req])
    | Except.ok resp =>
      match resp.Body with
      | Except.error err => (Except.error err, [Event.httpDo req])
      | Except.ok respBody =>
        if resp.StatusCode ≥ 400 then
          (Except.error ("API error: " ++ fmtInt resp.StatusCode ++ " - " ++ respBody),
            [Event.httpDo req])
        else
          match unmarshal respBody with
          | Except.error err =>
            (Except.error ("failed to parse response: " ++ err), [Event.httpDo req])
          | Except.ok v => (Except.ok v, [Event.httpDo req])

/-- ListSites returns all sites. -/
def Client.ListSites (c : Client) (w : World) : Except String (GoSlice Site) × List Event :=
  match c.doRequest w "GET" "/sites" w.unmarshalSites with
  | (Except.error err, tr) =>
    (Except.error ("failed to list sites: " ++ err), Event.clientCall "ListSites" :: tr)
  | (Except.ok data, tr) => (Except.ok data, Event.clientCall "ListSites" :: tr)

/-- GetSiteDetails returns detailed information about a specific site. -/
def Client.GetSiteDetails (c : Client) (w : World) (siteID : String) :
    Except String Site × List Event :=
  match c.doRequest w "GET" ("/sites/" ++ siteID) w.unmarshalSite with
  | (Except.error err, tr) =>
    (Except.error ("failed to get site details: " ++ err), Event.clientCall "GetSiteDetails" :: tr)
  | (Except.ok data, tr) => (Except.ok data, Event.clientCall "GetSiteDetails" :: tr)

/-- ListHosts returns all hosts. -/
def Client.ListHosts (c : Client) (w : World) : Except String (GoSlice Host) × List Event :=
  match c.doRequest w "GET" "/hosts" w.unmarshalHosts with
  | (Except.error err, tr) =>
    (Except.error ("failed to list hosts: " ++ err), Event.clientCall "ListHosts" :: tr)
  | (Except.ok data, tr) => (Except.ok data, Event.clientCall "ListHosts" :: tr)

/-- GetHostDetails returns detailed information about a specific host. -/
def Client.GetHostDetails (c : Client) (w : World) (hostID : String) :
    Except String Host × List Event :=
  match c.doRequest w "GET" ("/hosts/" ++ hostID) w.unmarshalHost with
  | (Except.error err, tr) =>
    (Except.error ("failed to get host details: " ++ err), Event.clientCall "GetHostDetails" :: tr)
  | (Except.ok data, tr) => (Except.ok data, Event.clientCall "GetHostDetails" :: tr)

/-- ListDevices returns all devices. -/
def Client.ListDevices (c : Client) (w : World) : Except String (GoSlice Device) × List Event :=
  match c.doRequest w "GET" "/devices" w.unmarshalDevices with
  | (Except.error err, tr) =>
    (Except.error ("failed to list devices: " ++ err), Event.clientCall "ListDevices" :: tr)
  | (Except.ok data, tr) => (Except.ok data, Event.clientCall "ListDevices" :: tr)

/-- GetDeviceDetails returns detailed information about a specific device. -/
def Client.GetDeviceDetails (c : Client) (w : World) (deviceID : String) :
    Except String Device × List Event :=
  match c.doRequest w "GET" ("/devices/" ++ deviceID) w.unmarshalDevice with
  | (Except.error err, tr) =>
    (Except.error ("failed to get device details: " ++ err),
      Event.clientCall "GetDeviceDetails" :: tr)
  | (Except.ok data, tr) => (Except.ok data, Event.clientCall "GetDeviceDetails" :: tr)

/-- ListDeployments returns all deployments. -/
def Client.ListDeployments (c : Client) (w : World) :
    Except String (GoSlice Deployment) × List Event :=
  match c.doRequest w "GET" "/deployments" w.unmarshalDeployments with
  | (Except.error err, tr) =>
    (Except.error ("failed to list deployments: " ++ err), Event.clientCall "ListDeployments" :: tr)
  | (Except.ok data, tr) => (Except.ok data, Event.clientCall "ListDeployments" :: tr)

/-- GetDeploymentDetails returns detailed information about a specific deployment. -/
def Client.GetDeploymentDetails (c : Client) (w : World) (deploymentID : String) :
    Except String Deployment × List Event :=
  match c.doRequest w "GET" ("/deployments/" ++ deploymentID) w.unmarshalDeployment with
  | (Except.error err, tr) =>
    (Except.error ("failed to get deployment details: " ++ err),
      Event.clientCall "GetDeploymentDetails" :: tr)
  | (Except.ok data, tr) => (Except.ok data, Event.clientCall "GetDeploymentDetails" :: tr)

/-! ## Tool protocol values (the surface of mcp-go the handlers use) -/

/-- A decoded JSON argument value (Go `any`). -/
inductive Arg where
  | str (s : String) : Arg
  | num (n : Int) : Arg
  | bool (b : Bool) : Arg
  | null : Arg
  deriving DecidableEq, Repr

/-- The arguments of a tool call: Go `map[string]any`, as an association list. -/
structure CallToolRequest where
  Arguments : List (String × Arg)
  deriving DecidableEq, Repr

/-- The mcp-go accessor `GetString(key, defaultValue)`: the argument when it is
present and is a string, the default otherwise. -/
def CallToolRequest.GetString (r : CallToolRequest) (key defaultValue : String) : String :=
  match r.Arguments.lookup key with
  | some (Arg.str s) => s
  | _ => defaultValue

/-- A Go `interface{}` holding one of the four records (an element of a
`[]interface{}`). -/
inductive Elem where
  | site (v : Site) : Elem
  | host (v : Host) : Elem
  | device (v : Device) : Elem
  | deployment (v : Deployment) : Elem
  deriving DecidableEq, Repr

/-- A value stored in a result map (`map[string]interface{}`). -/
inductive Value where
  | str (s : String) : Value
  | int (n : Int) : Value
  | slice (xs : GoSlice Elem) : Value
  deriving DecidableEq, Repr

/-- The data handed to `mcp.NewToolResultJSON`: a pointer to one record, or a
map literal (its entries in the order the source writes them). -/
inductive Payload where
  | site (v : Site) : Payload
  | host (v : Host) : Payload
  | device (v : Device) : Payload
  | deployment (v : Deployment) : Payload
  | map (entries : List (String × Value)) : Payload
  deriving DecidableEq, Repr

/-- A JSON document. -/
inductive JSON where
  | null : JSON
  | num (n : Int) : JSON
  | str (s : String) : JSON
  | arr (items : List JSON) : JSON
  | obj (members : List (String × JSON)) : JSON

/-- Go `json.Marshal` of a `Site`, following its field tags. -/
def Site.marshal (v : Site) : JSON :=
  JSON.obj [("id", JSON.str v.ID), ("name", JSON.str v.Name),
    ("description", JSON.str v.Description)]

/-- Go `json.Marshal` of a `Host`, following its field tags. -/
def Host.marshal (v : Host) : JSON :=
  JSON.obj [("id", JSON.str v.ID), ("name", JSON.str v.Name),
    ("site_id", JSON.str v.SiteID), ("status", JSON.str v.Status)]

/-- Go `json.Marshal` of a `Device`, following its field tags. -/
def Device.marshal (v : Device) : JSON :=
  JSON.obj [("id", JSON.str v.ID), ("name", JSON.str v.Name), ("type", JSON.str v.Type_),
    ("status", JSON.str v.Status), ("site_id", JSON.str v.SiteID)]

/-- Go `json.Marshal` of a `Deployment`, following its field tags. -/
def Deployment.marshal (v : Deployment) : JSON :=
  JSON.obj [("id", JSON.str v.ID), ("name", JSON.str v.Name), ("status", JSON.str v.Status)]

/-- Go `json.Marshal` of an interface element. -/
def Elem.marshal : Elem → JSON
  | Elem.site v => v.marshal
  | Elem.host v => v.marshal
  | Elem.device v => v.marshal
  | Elem.deployment v => v.marshal

/-- Go `json.Marshal` of a map value: a nil slice is encoded as `null`, a
non-nil slice as an array. -/
def Value.marshal : Value → JSON
  | Value.str s => JSON.str s
  | Value.int n => JSON.num n
  | Value.slice GoSlice.nil => JSON.null
  | Value.slice (GoSlice.mk xs) => JSON.arr (xs.map Elem.marshal)

/-- Go `json.Marshal` of a payload. (For a map, `encoding/json` writes the
members sorted by key; the members are kept here in source order, and nothing
below depends on their order.) -/
def Payload.marshal : Payload → JSON
  | Payload.site v => v.marshal
  | Payload.host v => v.marshal
  | Payload.device v => v.marshal
  | Payload.deployment v => v.marshal
  | Payload.map entries => JSON.obj (entries.map (fun kv => (kv.1, kv.2.marshal)))

/-- The member of a JSON object under a key, if the document is an object
holding it. -/
def JSON.member (j : JSON) (key : String) : Option JSON :=
  match j with
  | JSON.obj members => members.lookup key
  | _ => none

/-- A `*mcp.CallToolResult`. `toolError text` is what `mcp.NewToolResultError`
builds (`IsError = true`, one text content); `json data` is what
`mcp.NewToolResultJSON` builds (`IsError = false`, the text content is
`json.Marshal(data)`, the structured content is `data`). -/
inductive CallToolResult where
  | toolError (text : String) : CallToolResult
  | json (data : Payload) : CallToolResult
  deriving DecidableEq, Repr

/-- The field `IsError`. -/
def CallToolResult.IsError : CallToolResult → Bool
  | CallToolResult.toolError _ => true
  | CallToolResult.json _ => false

/-- What a handler returns: the pair `(*mcp.CallToolResult, error)` of the Go
signature, and the trace of what it did. -/
structure ToolReturn where
  result : CallToolResult
  err : Option String
  trace : List Event
  deriving DecidableEq, Repr

/-- The function `mcp.NewToolResultError`. -/
def NewToolResultError (text : String) : CallToolResult :=
  CallToolResult.toolError text

/-- The function `mcp.NewToolResultJSON`, with the trace so far. It returns an
error only when `json.Marshal` fails, which cannot happen for a `Payload`
(strings, ints, slices and string-keyed maps of those). -/
def NewToolResultJSON (data : Payload) (tr : List Event) : ToolReturn :=
  { result := CallToolResult.json data, err := none, trace := tr }

/-! ## Tool server (server.go) -/

/-- Server represents the MCP server. -/
structure Server where
  unifiClient : Client
  deriving DecidableEq, Repr

/-- A tool handler (`server.ToolHandlerFunc`), run in a given world. -/
abbrev Handler := World → CallToolRequest → ToolReturn

/-- The handler of `list_sites`. -/
def Server.listSites (s : Server) (w : World) (_request : CallToolRequest) : ToolReturn :=
  match s.unifiClient.ListSites w with
  | (Except.error err, tr) =>
    { result := NewToolResultError ("Failed to list sites: " ++ err), err := none, trace := tr }
  | (Except.ok sites, tr) =>
    let sitesInterface : GoSlice Elem :=
      sites.elems.foldl (fun acc x => acc.append (Elem.site x)) GoSlice.nil
    NewToolResultJSON (Payload.map [
      ("sites", Value.slice sitesInterface),
      ("count", Value.int sitesInterface.len)]) tr

/-- The handler of `get_site_details`. -/
def Server.getSiteDetails (s : Server) (w : World) (request : CallToolRequest) : ToolReturn :=
  let siteID := request.GetString "site_id" ""
  if siteID == "" then
    { result := NewToolResultError "site_id parameter is required", err := none, trace := [] }
  else
    match s.unifiClient.GetSiteDetails w siteID with
    | (Except.error err, tr) =>
      { result := NewToolResultError ("Failed to get site details: " ++ err), err := none, trace := tr }
    | (Except.ok v, tr) => NewToolResultJSON (Payload.site v) tr

/-- The handler of `get_site_overview`. -/
def Server.getSiteOverview (s : Server) (w : World) (request : CallToolRequest) : ToolReturn :=
  let siteID := request.GetString "site_id" ""
  if siteID == "" then
    { result := NewToolResultError "site_id parameter is required", err := none, trace := [] }
  else
    match s.unifiClient.GetSiteDetails w siteID with
    | (Except.error err, tr) =>
      { result := NewToolResultError ("Failed to get site overview: " ++ err), err := none,
        trace := tr }
    | (Except.ok site, tr) =>
      NewToolResultJSON (Payload.map [
        ("site_id", Value.str site.ID),
        ("name", Value.str site.Name),
        ("description", Value.str site.Description)]) tr

/-- The handler of `list_hosts`. -/
def Server.listHosts (s : Server) (w : World) (_request : CallToolRequest) : ToolReturn :=
  match s.unifiClient.ListHosts w with
  | (Except.error err, tr) =>
    { result := NewToolResultError ("Failed to list hosts: " ++ err), err := none, trace := tr }
  | (Except.ok hosts, tr) =>
    let hostsInterface : GoSlice Elem :=
      hosts.elems.foldl (fun acc x => acc.append (Elem.host x)) GoSlice.nil
    NewToolResultJSON (Payload.map [
      ("hosts", Value.slice hostsInterface),
      ("count", Value.int hostsInterface.len)]) tr

/-- The handler of `get_host_details`. -/
def Server.getHostDetails (s : Server) (w : World) (request : CallToolRequest) : ToolReturn :=
  let hostID := request.GetString "host_id" ""
  if hostID == "" then
    { result := NewToolResultError "host_id parameter is required", err := none, trace := [] }
  else
    match s.unifiClient.GetHostDetails w hostID with
    | (Except.error err, tr) =>
      { result := NewToolResultError ("Failed to get host details: " ++ err), err := none, trace := tr }
    | (Except.ok v, tr) => NewToolResultJSON (Payload.host v) tr

/-- The handler of `get_hosts_by_site`: client-side filtering of the full list. -/
def Server.getHostsBySite (s : Server) (w : World) (request : CallToolRequest) : ToolReturn :=
  let siteID := request.GetString "site_id" ""
  if siteID == "" then
    { result := NewToolResultError "site_id parameter is required", err := none, trace := [] }
  else
    match s.unifiClient.ListHosts w with
    | (Except.error err, tr) =>
      { result := NewToolResultError ("Failed to get hosts for site: " ++ err), err := none, trace := tr }
    | (Except.ok hosts, tr) =>
      let filtered : GoSlice Elem :=
        hosts.elems.foldl
          (fun acc x => if x.SiteID == siteID then acc.append (Elem.host x) else acc)
          GoSlice.nil
      NewToolResultJSON (Payload.map [
        ("hosts", Value.slice filtered),
        ("count", Value.int filtered.len),
        ("site_id", Value.str siteID)]) tr

/-- The handler of `list_devices`. -/
def Server.listDevices (s : Server) (w : World) (_request : CallToolRequest) : ToolReturn :=
  match s.unifiClient.ListDevices w with
  | (Except.error err, tr) =>
    { result := NewToolResultError ("Failed to list devices: " ++ err), err := none, trace := tr }
  | (Except.ok devices, tr) =>
    let devicesInterface : GoSlice Elem :=
      devices.elems.foldl (fun acc x => acc.append (Elem.device x)) GoSlice.nil
    NewToolResultJSON (Payload.map [
      ("devices", Value.slice devicesInterface),
      ("count", Value.int devicesInterface.len)]) tr

/-- The handler of `get_device_details`. -/
def Server.getDeviceDetails (s : Server) (w : World) (request : CallToolRequest) : ToolReturn :=
  let deviceID := request.GetString "device_id" ""
  if deviceID == "" then
    { result := NewToolResultError "device_id parameter is required", err := none, trace := [] }
  else
    match s.unifiClient.GetDeviceDetails w deviceID with
    | (Except.error err, tr) =>
      { result := NewToolResultError ("Failed to get device details: " ++ err), err := none, trace := tr }
    | (Except.ok v, tr) => NewToolResultJSON (Payload.device v) tr

/-- The handler of `get_devices_by_site`: client-side filtering of the full list. -/
def Server.getDevicesBySite (s : Server) (w : World) (request : CallToolRequest) : ToolReturn :=
  let siteID := request.GetString "site_id" ""
  if siteID == "" then
    { result := NewToolResultError "site_id parameter is required", err := none, trace := [] }
  else
    match s.unifiClient.ListDevices w with
    | (Except.error err, tr) =>
      { result := NewToolResultError ("Failed to get devices for site: " ++ err), err := none, trace := tr }
    | (Except.ok devices, tr) =>
      let filtered : GoSlice Elem :=
        devices.elems.foldl
          (fun acc x => if x.SiteID == siteID then acc.append (Elem.device x) else acc)
          GoSlice.nil
      NewToolResultJSON (Payload.map [
        ("devices", Value.slice filtered),
        ("count", Value.int filtered.len),
        ("site_id", Value.str siteID)]) tr

/-- The handler of `list_deployments`. -/
def Server.listDeployments (s : Server) (w : World) (_request : CallToolRequest) : ToolReturn :=
  match s.unifiClient.ListDeployments w with
  | (Except.error err, tr) =>
    { result := NewToolResultError ("Failed to list deployments: " ++ err), err := none, trace := tr }
  | (Except.ok deployments, tr) =>
    let deploymentsInterface : GoSlice Elem :=
      deployments.elems.foldl (fun acc x => acc.append (Elem.deployment x)) GoSlice.nil
    NewToolResultJSON (Payload.map [
      ("deployments", Value.slice deploymentsInterface),
      ("count", Value.int deploymentsInterface.len)]) tr

/-- The handler of `get_deployment_details`. -/
def Server.getDeploymentDetails (s : Server) (w : World) (request : CallToolRequest) : ToolReturn :=
  let deploymentID := request.GetString "deployment_id" ""
  if deploymentID == "" then
    { result := NewToolResultError "deployment_id parameter is required", err := none, trace := [] }
  else
    match s.unifiClient.GetDeploymentDetails w deploymentID with
    | (Except.error err, tr) =>
      { result := NewToolResultError ("Failed to get deployment details: " ++ err), err := none, trace := tr }
    | (Except.ok v, tr) => NewToolResultJSON (Payload.deployment v) tr

/-! ## Tool registration (server.go, `registerTools`) -/

/-- The type `mcp.ToolInputSchema`: `Properties` maps a parameter name to its
schema, itself a map of strings. `registerTools` sets `Type_` (Go `Type`) and
`Properties` only, so `Required` stays nil. -/
structure ToolInputSchema where
  Type_ : String
  Properties : List (String × List (String × String))
  Required : List String
  deriving DecidableEq, Repr

/-- The type `mcp.Tool`. -/
structure Tool where
  Name : String
  Description : String
  InputSchema : ToolInputSchema
  deriving DecidableEq, Repr

/-- The local helper `addTool` of `registerTools`: the tool definition and its
handler, as passed to `s.server.AddTool`. -/
def addTool (name desc : String) (handler : Handler)
    (properties : List (String × List (String × String))) : Tool × Handler :=
  ({ Name := name, Description := desc,
     InputSchema := { Type_ := "object", Properties := properties, Required := [] } }, handler)

/-- The calls `registerTools` makes to `AddTool`, in order. (mcp-go keeps the
tools in a map keyed by name.) -/
def Server.registerTools (s : Server) : List (Tool × Handler) := [
  addTool "list_sites" "List all UniFi sites in the account" s.listSites [],
  addTool "get_site_details" "Get detailed information about a specific site" s.getSiteDetails
    [("site_id", [("type", "string"), ("description", "Site ID")])],
  addTool "get_site_overview" "Get overview statistics for a specific site" s.getSiteOverview
    [("site_id", [("type", "string"), ("description", "Site ID")])],
  addTool "list_hosts" "List all hosts across all sites" s.listHosts [],
  addTool "get_host_details" "Get detailed information about a specific host" s.getHostDetails
    [("host_id", [("type", "string"), ("description", "Host ID")])],
  addTool "get_hosts_by_site" "Get all hosts in a specific site" s.getHostsBySite
    [("site_id", [("type", "string"), ("description", "Site ID")])],
  addTool "list_devices" "List all network devices across all sites" s.listDevices [],
  addTool "get_device_details" "Get detailed information about a specific device"
    s.getDeviceDetails
    [("device_id", [("type", "string"), ("description", "Device ID")])],
  addTool "get_devices_by_site" "Get all devices in a specific site" s.getDevicesBySite
    [("site_id", [("type", "string"), ("description", "Site ID")])],
  addTool "list_deployments" "List all deployments across all sites" s.listDeployments [],
  addTool "get_deployment_details" "Get detailed information about a specific deployment"
    s.getDeploymentDetails
    [("deployment_id", [("type", "string"), ("description", "Deployment ID")])]]

/-- NewServer creates a new MCP server and registers its tools. -/
def NewServer (unifiClient : Client) : Server := { unifiClient := unifiClient }

/-! ## The specification's tables -/

/-- The tool table of section 4.2 of the specification: each tool with its
required parameter, if it has one. -/
def specToolTable : List (String × Option String) := [
  ("list_sites", none),
  ("get_site_details", some "site_id"),
  ("get_site_overview", some "site_id"),
  ("list_hosts", none),
  ("get_host_details", some "host_id"),
  ("get_hosts_by_site", some "site_id"),
  ("list_devices", none),
  ("get_device_details", some "device_id"),
  ("get_devices_by_site", some "site_id"),
  ("list_deployments", none),
  ("get_deployment_details", some "deployment_id")]

/-- The required parameter the specification gives for a tool. -/
def specParam (name : String) : Option String :=
  (specToolTable.lookup name).getD none

/-- The value a request carries for the tool's required parameter (the empty
string when it is absent, not a string, or the tool has no parameter). -/
def specArg (name : String) (req : CallToolRequest) : String :=
  match specParam name with
  | some p => req.GetString p ""
  | none => ""

/-- A request passes parameter validation for a tool: the tool takes no
parameter, or its required parameter is a non-empty string. -/
def passesValidation (name : String) (req : CallToolRequest) : Prop :=
  specParam name = none ∨ specArg name req ≠ ""

instance (name : String) (req : CallToolRequest) : Decidable (passesValidation name req) := by
  unfold passesValidation; infer_instance

/-- The `<action>` wording of the error prefix `"Failed to <action>: "`, per tool. -/
def specAction : List (String × String) := [
  ("list_sites", "list sites"),
  ("get_site_details", "get site details"),
  ("get_site_overview", "get site overview"),
  ("list_hosts", "list hosts"),
  ("get_host_details", "get host details"),
  ("get_hosts_by_site", "get hosts for site"),
  ("list_devices", "list devices"),
  ("get_device_details", "get device details"),
  ("get_devices_by_site", "get devices for site"),
  ("list_deployments", "list deployments"),
  ("get_deployment_details", "get deployment details")]

/-- The resource path the specification gives for a tool called with
identifier `id`. -/
def specPath (id : String) : List (String × String) := [
  ("list_sites", "/sites"),
  ("get_site_details", "/sites/" ++ id),
  ("get_site_overview", "/sites/" ++ id),
  ("list_hosts", "/hosts"),
  ("get_host_details", "/hosts/" ++ id),
  ("get_hosts_by_site", "/hosts"),
  ("list_devices", "/devices"),
  ("get_device_details", "/devices/" ++ id),
  ("get_devices_by_site", "/devices"),
  ("list_deployments", "/deployments"),
  ("get_deployment_details", "/deployments/" ++ id)]

/-- The error message of an outcome, if it is a failure. -/
def errorOf {α : Type} : Except String α → Option String
  | Except.error m => some m
  | Except.ok _ => none

/-- The error message of the API client call a tool makes for identifier
`arg`, if that call fails. -/
def clientError (c : Client) (w : World) (arg : String) : List (String × Option String) := [
  ("list_sites", errorOf (c.ListSites w).1),
  ("get_site_details", errorOf (c.GetSiteDetails w arg).1),
  ("get_site_overview", errorOf (c.GetSiteDetails w arg).1),
  ("list_hosts", errorOf (c.ListHosts w).1),
  ("get_host_details", errorOf (c.GetHostDetails w arg).1),
  ("get_hosts_by_site", errorOf (c.ListHosts w).1),
  ("list_devices", errorOf (c.ListDevices w).1),
  ("get_device_details", errorOf (c.GetDeviceDetails w arg).1),
  ("get_devices_by_site", errorOf (c.ListDevices w).1),
  ("list_deployments", errorOf (c.ListDeployments w).1),
  ("get_deployment_details", errorOf (c.GetDeploymentDetails w arg).1)]

/-- One string occurs in another as a contiguous substring. -/
def Contains (text piece : String) : Prop := piece.data <:+: text.data

/-! ## Concrete worlds and requests used as examples -/

/-- The check `stringContainsCTLByte` of Go's `net/url`: `url.Parse`, and with
it `http.NewRequestWithContext`, refuses a URL holding an ASCII control
character. -/
def stringContainsCTLByte (s : String) : Bool :=
  s.data.any (fun ch => ch.toNat < 32 || ch.toNat == 127)

/-- One character as Go's `%q` writes it inside a quoted ASCII-safe string:
the quote and the backslash escaped, control characters by their short escape
or as `\xHH`. -/
def goQuoteChar (ch : Char) : List Char :=
  if ch = '"' then ['\\', '"']
  else if ch = '\\' then ['\\', '\\']
  else if ch.toNat = 7 then ['\\', 'a']
  else if ch.toNat = 8 then ['\\', 'b']
  else if ch.toNat = 9 then ['\\', 't']
  else if ch.toNat = 10 then ['\\', 'n']
  else if ch.toNat = 11 then ['\\', 'v']
  else if ch.toNat = 12 then ['\\', 'f']
  else if ch.toNat = 13 then ['\\', 'r']
  else if ch.toNat < 32 || ch.toNat == 127 then
    ['\\', 'x', Nat.digitChar (ch.toNat / 16), Nat.digitChar (ch.toNat % 16)]
  else [ch]

/-- Go `fmt.Sprintf("%q", s)`, for the strings met here. -/
def goQuote (s : String) : String :=
  String.mk (['"'] ++ (s.data.map goQuoteChar).flatten ++ ['"'])

/-- Spaces percent-encoded, as `net/url` writes a path. -/
def escapeSpaces : List Char → List Char
  | [] => []
  | ch :: rest =>
    if ch = ' ' then '%' :: '2' :: '0' :: escapeSpaces rest else ch :: escapeSpaces rest

/-- The URL `net/http` sends for a URL string, for the URLs met in the examples
(their paths hold no character to escape other than the space): the fragment
from the first `#` is dropped, the spaces of the path before the first `?` are
percent-encoded, the query is kept as written. -/
def wireURL (url : String) : String :=
  let noFragment := url.data.takeWhile (fun ch => ch != '#')
  let path := noFragment.takeWhile (fun ch => ch != '?')
  let query := noFragment.dropWhile (fun ch => ch != '?')
  String.mk (escapeSpaces path ++ query)

/-- A world whose upstream answers every request directly with `resp` (one
upstream request per call of the HTTP client), whose request construction
applies the control-character check of `url.Parse` (with the message of Go's
`url.Error`), and whose
decoders give the listed records (the single-record decoders give the first
of each list). -/
def exampleWorld (resp : Response) (sites : GoSlice Site) (hosts : GoSlice Host)
    (devices : GoSlice Device) (deployments : GoSlice Deployment) : World :=
  { newRequestErr := fun _ url =>
      if stringContainsCTLByte url then
        some ("parse " ++ goQuote url ++ ": net/url: invalid control character in URL")
      else none
    Do := fun _ => Except.ok resp
    sent := fun req => [⟨req.Method, wireURL req.URL⟩]
    unmarshalSites := fun _ => Except.ok sites
    unmarshalSite := fun _ => Except.ok (sites.elems.headD ⟨"", "", ""⟩)
    unmarshalHosts := fun _ => Except.ok hosts
    unmarshalHost := fun _ => Except.ok (hosts.elems.headD ⟨"", "", "", ""⟩)
    unmarshalDevices := fun _ => Except.ok devices
    unmarshalDevice := fun _ => Except.ok (devices.elems.headD ⟨"", "", "", "", ""⟩)
    unmarshalDeployments := fun _ => Except.ok deployments
    unmarshalDeployment := fun _ => Except.ok (deployments.elems.headD ⟨"", "", ""⟩) }

/-- Three hosts, two of them in site `"X"`. -/
def exampleHosts : GoSlice Host :=
  GoSlice.mk [⟨"h1", "alpha", "X", "online"⟩, ⟨"h2", "beta", "x", "online"⟩,
    ⟨"h3", "gamma", "X", "offline"⟩]

/-- Three devices, two of them in site `"X"`. -/
def exampleDevices : GoSlice Device :=
  GoSlice.mk [⟨"d1", "sw1", "switch", "online", "X"⟩, ⟨"d2", "ap1", "ap", "online", "Y"⟩,
    ⟨"d3", "gw1", "gateway", "offline", "X"⟩]

/-- One site. -/
def exampleSites : GoSlice Site := GoSlice.mk [⟨"s1", "HQ", "head office"⟩]

/-- Two deployments. -/
def exampleDeployments : GoSlice Deployment :=
  GoSlice.mk [⟨"p1", "rollout", "done"⟩, ⟨"p2", "pilot", "running"⟩]

/-- A world answering 200 with the example records. -/
def okWorld : World :=
  exampleWorld ⟨200, Except.ok "\x7b\"data\":[]\x7d"⟩ exampleSites exampleHosts exampleDevices
    exampleDeployments

/-- A world answering 200 with empty (non-nil) lists. -/
def emptyWorld : World :=
  exampleWorld ⟨200, Except.ok "\x7b\"data\":[]\x7d"⟩ (GoSlice.mk []) (GoSlice.mk [])
    (GoSlice.mk []) (GoSlice.mk [])

/-- A world answering 200 with an envelope without `data`: the decoded lists
are nil slices. -/
def absentWorld : World :=
  exampleWorld ⟨200, Except.ok "\x7b\x7d"⟩ GoSlice.nil GoSlice.nil GoSlice.nil GoSlice.nil

/-- A world whose upstream first answers every request with a redirect to the
same URL with a trailing slash, and answers that one with 200 and the example
records: the HTTP client follows the redirect, so each call sends two
requests. -/
def redirectWorld : World :=
  { okWorld with
    sent := fun req => [⟨req.Method, wireURL req.URL⟩, ⟨req.Method, wireURL req.URL ++ "/"⟩] }

/-- A world answering 404 with body `{"error":"not found"}`. -/
def notFoundWorld : World :=
  exampleWorld ⟨404, Except.ok "\x7b\"error\":\"not found\"\x7d"⟩ exampleSites exampleHosts
    exampleDevices exampleDeployments

/-- A server built as `main` does, with API key `"k"`. -/
def exampleServer : Server := NewServer (NewClient "k")

/-- A request carrying one string argument. -/
def requestWith (key value : String) : CallToolRequest :=
  { Arguments := [(key, Arg.str value)] }

/-! ## Predicates used to state the properties -/

/-- The member under `key` of the serialised success payload, if the result is
a success and its JSON object has that member. -/
def ToolReturn.member (ret : ToolReturn) (key : String) : Option JSON :=
  match ret.result with
  | CallToolResult.json data => data.marshal.member key
  | CallToolResult.toolError _ => none

/-- The return of a list tool over `items`: a success result whose map holds,
under `key`, a slice with exactly the elements `items` in that order and, under
`count`, their number, which is serialised as that JSON integer; the
protocol-level error is nil. -/
def IsCountedList (key : String) (items : List Elem) (ret : ToolReturn) : Prop :=
  ∃ xs : GoSlice Elem,
    ret.result = CallToolResult.json (Payload.map [
      (key, Value.slice xs), ("count", Value.int items.length)]) ∧
    xs.elems = items ∧
    ret.err = none ∧
    ret.member "count" = some (JSON.num items.length)

/-- The return of a by-site tool for site `X` over the selected `items`: a
success result whose map holds, under `key`, a slice with exactly the elements
`items` in that order, under `count` their number and under `site_id` the
value `X`; the protocol-level error is nil. -/
def IsSiteFilteredList (key X : String) (items : List Elem) (ret : ToolReturn) : Prop :=
  ∃ xs : GoSlice Elem,
    ret.result = CallToolResult.json (Payload.map [
      (key, Value.slice xs), ("count", Value.int items.length), ("site_id", Value.str X)]) ∧
    xs.elems = items ∧
    ret.err = none

/-! ## Lemmas on the loops -/

theorem foldl_append_filter {α : Type} (p : α → Prop) [DecidablePred p] (f : α → Elem)
    (xs : List α) (init : GoSlice Elem) :
    (xs.foldl (fun acc x => if p x then acc.append (f x) else acc) init).elems
      = init.elems ++ (xs.filter (fun x => decide (p x))).map f := by
  induction xs generalizing init with
  | nil => simp
  | cons x xs ih =>
    simp only [List.foldl_cons]
    rw [ih]
    by_cases hp : p x
    · simp [hp, GoSlice.append, GoSlice.elems]
    · simp [hp]

theorem foldl_append_all {α : Type} (f : α → Elem) (xs : List α) (init : GoSlice Elem) :
    (xs.foldl (fun acc x => acc.append (f x)) init).elems = init.elems ++ xs.map f := by
  induction xs generalizing init with
  | nil => simp
  | cons x xs ih =>
    simp only [List.foldl_cons]
    rw [ih]
    simp [GoSlice.append, GoSlice.elems]

/-- The loop of the by-site handlers selects exactly the elements whose site
identifier equals `X`, in order. -/
theorem filtered_elems {α : Type} (g : α → String) (f : α → Elem) (X : String) (xs : List α) :
    (xs.foldl (fun acc x => if (g x == X) = true then acc.append (f x) else acc)
        GoSlice.nil).elems
      = (xs.filter (fun x => decide (g x = X))).map f := by
  rw [foldl_append_filter (fun x => (g x == X) = true) f xs GoSlice.nil]
  have hfun : (fun x => decide ((g x == X) = true)) = (fun x => decide (g x = X)) := by
    funext x
    by_cases h : g x = X <;> simp [h]
  rw [hfun]
  rfl

/-- The loop of the list handlers copies every element, in order. -/
theorem copied_elems {α : Type} (f : α → Elem) (xs : List α) :
    (xs.foldl (fun acc x => acc.append (f x)) GoSlice.nil).elems = xs.map f := by
  rw [foldl_append_all]
  rfl

theorem empty_ne_of_ne {X : String} (hne : X ≠ "") : (X == "") = false := by
  simp [hne]

/-- A success result over a copied list is a counted list. -/
theorem isCountedList_of_copy (key : String) (hkey : (key == "count") = false)
    (xs : GoSlice Elem) (items : List Elem) (tr : List Event) (hxs : xs.elems = items) :
    IsCountedList key items
      (NewToolResultJSON (Payload.map [(key, Value.slice xs), ("count", Value.int xs.len)]) tr) := by
  have hlen : xs.len = items.length := by rw [GoSlice.len, hxs]
  refine ⟨xs, ?_, hxs, rfl, ?_⟩
  · simp [NewToolResultJSON, hlen]
  · have hkey2 : ("count" == key) = false := by
      simp only [beq_eq_false_iff_ne, ne_eq] at hkey ⊢
      exact fun h => hkey h.symm
    simp [ToolReturn.member, NewToolResultJSON, Payload.marshal, JSON.member, List.lookup,
      Value.marshal, hlen, hkey2]

/-- A success result over a selected list is a site-filtered list. -/
theorem isSiteFilteredList_of_filter (key X : String) (xs : GoSlice Elem) (items : List Elem)
    (tr : List Event) (hxs : xs.elems = items) :
    IsSiteFilteredList key X items
      (NewToolResultJSON (Payload.map [(key, Value.slice xs), ("count", Value.int xs.len),
        ("site_id", Value.str X)]) tr) := by
  have hlen : xs.len = items.length := by rw [GoSlice.len, hxs]
  refine ⟨xs, ?_, hxs, rfl⟩
  simp [NewToolResultJSON, hlen]

/-! ## Filtering by site (C1, C2) -/

/-- C1: for a non-empty `site_id` X and a host list L decoded from a successful
upstream `GET /hosts`, `get_hosts_by_site` returns a success result whose
`hosts` slice holds exactly the hosts of L with `SiteID = X` (exact string
equality), in the order of L, whose `count` is their number and whose
`site_id` is X; `list_hosts` on the same upstream response returns all of L,
so the former is the filter of the latter. -/
theorem getHostsBySite_is_filter_of_listHosts (s : Server) (w : World) (req : CallToolRequest)
    (X : String) (L : GoSlice Host) (tr : List Event)
    (hX : req.GetString "site_id" "" = X) (hne : X ≠ "")
    (hL : s.unifiClient.ListHosts w = (Except.ok L, tr)) :
    IsSiteFilteredList "hosts" X
        ((L.elems.filter (fun h => decide (h.SiteID = X))).map Elem.host)
        (s.getHostsBySite w req) ∧
      IsCountedList "hosts" (L.elems.map Elem.host) (s.listHosts w req) := by
  constructor
  · unfold Server.getHostsBySite
    simp only [hX, hL, empty_ne_of_ne hne, Bool.false_eq_true, if_false]
    exact isSiteFilteredList_of_filter "hosts" X _ _ tr (filtered_elems Host.SiteID Elem.host X _)
  · unfold Server.listHosts
    simp only [hL]
    exact isCountedList_of_copy "hosts" (by decide) _ _ tr (copied_elems Elem.host _)

/-- C2: for a non-empty `site_id` X and a device list L decoded from a
successful upstream `GET /devices`, `get_devices_by_site` returns a success
result whose `devices` slice holds exactly the devices of L with `SiteID = X`
(exact string equality), in the order of L, whose `count` is their number and
whose `site_id` is X; `list_devices` on the same upstream response returns all
of L, so the former is the filter of the latter. -/
theorem getDevicesBySite_is_filter_of_listDevices (s : Server) (w : World)
    (req : CallToolRequest) (X : String) (L : GoSlice Device) (tr : List Event)
    (hX : req.GetString "site_id" "" = X) (hne : X ≠ "")
    (hL : s.unifiClient.ListDevices w = (Except.ok L, tr)) :
    IsSiteFilteredList "devices" X
        ((L.elems.filter (fun d => decide (d.SiteID = X))).map Elem.device)
        (s.getDevicesBySite w req) ∧
      IsCountedList "devices" (L.elems.map Elem.device) (s.listDevices w req) := by
  constructor
  · unfold Server.getDevicesBySite
    simp only [hX, hL, empty_ne_of_ne hne, Bool.false_eq_true, if_false]
    exact isSiteFilteredList_of_filter "devices" X _ _ tr
      (filtered_elems Device.SiteID Elem.device X _)
  · unfold Server.listDevices
    simp only [hL]
    exact isCountedList_of_copy "devices" (by decide) _ _ tr (copied_elems Elem.device _)

/-- A witness of C1: three hosts, two of them in site `"X"`. -/
theorem getHostsBySite_is_filter_of_listHosts_witness :
    (requestWith "site_id" "X").GetString "site_id" "" = "X" ∧ "X" ≠ "" ∧
      exampleServer.unifiClient.ListHosts okWorld
        = (Except.ok exampleHosts, [Event.clientCall "ListHosts",
            Event.httpDo ⟨"GET", "https://api.ui.com/v1/hosts",
              [("X-API-KEY", "k"), ("Accept", "application/json"),
               ("Content-Type", "application/json")]⟩]) ∧
      IsSiteFilteredList "hosts" "X"
        [Elem.host ⟨"h1", "alpha", "X", "online"⟩, Elem.host ⟨"h3", "gamma", "X", "offline"⟩]
        (exampleServer.getHostsBySite okWorld (requestWith "site_id" "X")) ∧
      IsCountedList "hosts"
        [Elem.host ⟨"h1", "alpha", "X", "online"⟩, Elem.host ⟨"h2", "beta", "x", "online"⟩,
         Elem.host ⟨"h3", "gamma", "X", "offline"⟩]
        (exampleServer.listHosts okWorld (requestWith "site_id" "X")) :=
  ⟨rfl, by decide, rfl,
    getHostsBySite_is_filter_of_listHosts exampleServer okWorld (requestWith "site_id" "X") "X"
      exampleHosts _ rfl (by decide) rfl⟩

/-- A witness of C2: three devices, two of them in site `"X"`. -/
theorem getDevicesBySite_is_filter_of_listDevices_witness :
    (requestWith "site_id" "X").GetString "site_id" "" = "X" ∧ "X" ≠ "" ∧
      exampleServer.unifiClient.ListDevices okWorld
        = (Except.ok exampleDevices, [Event.clientCall "ListDevices",
            Event.httpDo ⟨"GET", "https://api.ui.com/v1/devices",
              [("X-API-KEY", "k"), ("Accept", "application/json"),
               ("Content-Type", "application/json")]⟩]) ∧
      IsSiteFilteredList "devices" "X"
        [Elem.device ⟨"d1", "sw1", "switch", "online", "X"⟩,
         Elem.device ⟨"d3", "gw1", "gateway", "offline", "X"⟩]
        (exampleServer.getDevicesBySite okWorld (requestWith "site_id" "X")) ∧
      IsCountedList "devices"
        [Elem.device ⟨"d1", "sw1", "switch", "online", "X"⟩,
         Elem.device ⟨"d2", "ap1", "ap", "online", "Y"⟩,
         Elem.device ⟨"d3", "gw1", "gateway", "offline", "X"⟩]
        (exampleServer.listDevices okWorld (requestWith "site_id" "X")) :=
  ⟨rfl, by decide, rfl,
    getDevicesBySite_is_filter_of_listDevices exampleServer okWorld (requestWith "site_id" "X")
      "X" exampleDevices _ rfl (by decide) rfl⟩

/-! ## The list tools (C4) -/

/-- C4: for each of `list_sites`, `list_hosts`, `list_devices` and
`list_deployments` and every list L decoded from a successful upstream
response (the nil slice of an absent `data` included), the tool returns a
success result whose list field holds the elements of L in order and whose
`count` is the number of elements of L, serialised as that JSON integer (so 0
for an empty L). -/
theorem list_tools_return_all_with_count (s : Server) (w : World) (req : CallToolRequest) :
    (∀ L tr, s.unifiClient.ListSites w = (Except.ok L, tr) →
      IsCountedList "sites" (L.elems.map Elem.site) (s.listSites w req)) ∧
    (∀ L tr, s.unifiClient.ListHosts w = (Except.ok L, tr) →
      IsCountedList "hosts" (L.elems.map Elem.host) (s.listHosts w req)) ∧
    (∀ L tr, s.unifiClient.ListDevices w = (Except.ok L, tr) →
      IsCountedList "devices" (L.elems.map Elem.device) (s.listDevices w req)) ∧
    (∀ L tr, s.unifiClient.ListDeployments w = (Except.ok L, tr) →
      IsCountedList "deployments" (L.elems.map Elem.deployment) (s.listDeployments w req)) := by
  refine ⟨fun L tr hL => ?_, fun L tr hL => ?_, fun L tr hL => ?_, fun L tr hL => ?_⟩
  · unfold Server.listSites
    simp only [hL]
    exact isCountedList_of_copy "sites" (by decide) _ _ tr (copied_elems Elem.site _)
  · unfold Server.listHosts
    simp only [hL]
    exact isCountedList_of_copy "hosts" (by decide) _ _ tr (copied_elems Elem.host _)
  · unfold Server.listDevices
    simp only [hL]
    exact isCountedList_of_copy "devices" (by decide) _ _ tr (copied_elems Elem.device _)
  · unfold Server.listDeployments
    simp only [hL]
    exact isCountedList_of_copy "deployments" (by decide) _ _ tr
      (copied_elems Elem.deployment _)

/-- A witness of C4: two deployments give `count` 2; an empty upstream list of
sites and an absent `data` for hosts give `count` 0. -/
theorem list_tools_return_all_with_count_witness :
    exampleServer.unifiClient.ListDeployments okWorld
        = (Except.ok exampleDeployments, [Event.clientCall "ListDeployments",
            Event.httpDo ⟨"GET", "https://api.ui.com/v1/deployments",
              [("X-API-KEY", "k"), ("Accept", "application/json"),
               ("Content-Type", "application/json")]⟩]) ∧
      IsCountedList "deployments"
        [Elem.deployment ⟨"p1", "rollout", "done"⟩, Elem.deployment ⟨"p2", "pilot", "running"⟩]
        (exampleServer.listDeployments okWorld ⟨[]⟩) ∧
      IsCountedList "sites" [] (exampleServer.listSites emptyWorld ⟨[]⟩) ∧
      IsCountedList "hosts" [] (exampleServer.listHosts absentWorld ⟨[]⟩) :=
  ⟨rfl,
    (list_tools_return_all_with_count exampleServer okWorld ⟨[]⟩).2.2.2 exampleDeployments _ rfl,
    (list_tools_return_all_with_count exampleServer emptyWorld ⟨[]⟩).1 (GoSlice.mk []) _ rfl,
    (list_tools_return_all_with_count exampleServer absentWorld ⟨[]⟩).2.1 GoSlice.nil _ rfl⟩

/-! ## No match (C8) -/

/-- C8, as the code behaves: when no host (no device) has the asked site
identifier, the `hosts` (`devices`) slice is the nil slice, so the member is
serialised as JSON `null`, not as an empty array; `count` is 0. Shown on an
empty upstream list and on a non-empty one without a match. -/
theorem bySite_without_match_serialises_null :
    (exampleServer.getHostsBySite emptyWorld (requestWith "site_id" "X")).result
        = CallToolResult.json (Payload.map [("hosts", Value.slice GoSlice.nil),
            ("count", Value.int 0), ("site_id", Value.str "X")]) ∧
      (exampleServer.getHostsBySite emptyWorld (requestWith "site_id" "X")).member "hosts"
        = some JSON.null ∧
      (exampleServer.getHostsBySite emptyWorld (requestWith "site_id" "X")).member "count"
        = some (JSON.num 0) ∧
      (exampleServer.getHostsBySite okWorld (requestWith "site_id" "Z")).member "hosts"
        = some JSON.null ∧
      (exampleServer.getDevicesBySite emptyWorld (requestWith "site_id" "X")).member "devices"
        = some JSON.null ∧
      (exampleServer.getDevicesBySite okWorld (requestWith "site_id" "Z")).member "devices"
        = some JSON.null ∧
      some JSON.null ≠ some (JSON.arr []) :=
  ⟨rfl, rfl, rfl, rfl, rfl, rfl, by simp⟩

/-! ## Parameter validation (C3) -/

theorem getString_of_absent_or_empty (req : CallToolRequest) (p : String)
    (h : req.Arguments.lookup p = none ∨ req.Arguments.lookup p = some (Arg.str "")) :
    req.GetString p "" = "" := by
  rcases h with h | h <;> simp [CallToolRequest.GetString, h]

theorem getString_of_string (req : CallToolRequest) (p v : String)
    (h : req.Arguments.lookup p = some (Arg.str v)) : req.GetString p "" = v := by
  simp [CallToolRequest.GetString, h]

theorem append_ne_of_head (a m b : String) (h : (a.data ++ m.data).head? ≠ b.data.head?) :
    a ++ m ≠ b := by
  intro hab
  apply h
  rw [← hab]
  simp

/-- Each handler of a tool with a required parameter tests exactly that
parameter: an empty value gives the "required" error with nothing done, a
non-empty value never gives it. -/
theorem handler_checks_param (s : Server) (w : World) (req : CallToolRequest) :
    ∀ e ∈ s.registerTools, ∀ p, specParam e.1.Name = some p →
      (req.GetString p "" = "" →
        e.2 w req = ⟨CallToolResult.toolError (p ++ " parameter is required"), none, []⟩) ∧
      (req.GetString p "" ≠ "" →
        (e.2 w req).result ≠ CallToolResult.toolError (p ++ " parameter is required")) := by
  intro e he p hp
  simp only [Server.registerTools, List.mem_cons, List.mem_singleton, List.not_mem_nil,
    or_false] at he
  rcases he with rfl | rfl | rfl | rfl | rfl | rfl | rfl | rfl | rfl | rfl | rfl <;>
    simp [addTool, specParam, specToolTable, List.lookup] at hp <;> subst hp <;>
    refine ⟨fun hg => ?_, fun hg => ?_⟩
  all_goals first
    | (simp [addTool, Server.getSiteDetails, Server.getSiteOverview, Server.getHostDetails,
         Server.getHostsBySite, Server.getDeviceDetails, Server.getDevicesBySite,
         Server.getDeploymentDetails, hg, NewToolResultError]
       done)
    | (simp only [addTool, Server.getSiteDetails, Server.getSiteOverview, Server.getHostDetails,
         Server.getHostsBySite, Server.getDeviceDetails, Server.getDevicesBySite,
         Server.getDeploymentDetails, empty_ne_of_ne hg, Bool.false_eq_true, if_false]
       split
       all_goals simp [NewToolResultError, NewToolResultJSON]
       all_goals exact append_ne_of_head _ _ _ (by simp))

/-- C3: the tools with a required parameter are the seven named ones; for each
of them, a request in which that parameter is absent or the empty string is
answered by the tool-level error `"<param> parameter is required"`, with a nil
protocol-level error and an empty trace (no client call, no HTTP request);
and a request in which it is a non-empty string is not answered by that
error. -/
theorem required_parameter_is_checked (s : Server) (w : World) (req : CallToolRequest) :
    (s.registerTools.filter (fun e => (specParam e.1.Name).isSome)).map (fun e => e.1.Name)
        = ["get_site_details", "get_site_overview", "get_host_details", "get_hosts_by_site",
           "get_device_details", "get_devices_by_site", "get_deployment_details"] ∧
    ∀ e ∈ s.registerTools, ∀ p, specParam e.1.Name = some p →
      ((req.Arguments.lookup p = none ∨ req.Arguments.lookup p = some (Arg.str "")) →
        e.2 w req = ⟨CallToolResult.toolError (p ++ " parameter is required"), none, []⟩) ∧
      (∀ v, v ≠ "" → req.Arguments.lookup p = some (Arg.str v) →
        (e.2 w req).result ≠ CallToolResult.toolError (p ++ " parameter is required")) := by
  refine ⟨rfl, fun e he p hp => ⟨fun h => ?_, fun v hv hl => ?_⟩⟩
  · exact (handler_checks_param s w req e he p hp).1 (getString_of_absent_or_empty req p h)
  · refine (handler_checks_param s w req e he p hp).2 ?_
    rw [getString_of_string req p v hl]
    exact hv

/-- A witness of C3: `get_host_details` without arguments, and
`get_site_details` with a non-empty `site_id`. -/
theorem required_parameter_is_checked_witness :
    exampleServer.getHostDetails okWorld ⟨[]⟩
        = ⟨CallToolResult.toolError "host_id parameter is required", none, []⟩ ∧
      (exampleServer.getSiteDetails okWorld (requestWith "site_id" "s1")).result
        ≠ CallToolResult.toolError "site_id parameter is required" :=
  ⟨((required_parameter_is_checked exampleServer okWorld ⟨[]⟩).2
      (addTool "get_host_details" "Get detailed information about a specific host"
        exampleServer.getHostDetails
        [("host_id", [("type", "string"), ("description", "Host ID")])])
      (by simp [Server.registerTools]) "host_id" rfl).1 (Or.inl rfl),
   ((required_parameter_is_checked exampleServer okWorld (requestWith "site_id" "s1")).2
      (addTool "get_site_details" "Get detailed information about a specific site"
        exampleServer.getSiteDetails
        [("site_id", [("type", "string"), ("description", "Site ID")])])
      (by simp [Server.registerTools]) "site_id" rfl).2 "s1" (by decide) rfl⟩


/-! ## Client failures (C5) -/

/-- C5: every one of the 11 handlers returns a nil protocol-level error,
whatever the API client call does; and when the request passes validation and
the client call of the tool fails with message `m`, the result is the
tool-level error `"Failed to <action>: " ++ m`, with `<action>` the wording
fixed for the tool. -/
theorem client_failures_are_tool_errors (s : Server) (w : World) (req : CallToolRequest) :
    ∀ e ∈ s.registerTools,
      (e.2 w req).err = none ∧
      ∀ m, passesValidation e.1.Name req →
        (clientError s.unifiClient w (specArg e.1.Name req)).lookup e.1.Name = some (some m) →
        ∃ action, specAction.lookup e.1.Name = some action ∧
          (e.2 w req).result = CallToolResult.toolError ("Failed to " ++ action ++ ": " ++ m) := by
  intro e he
  simp only [Server.registerTools, List.mem_cons, List.mem_singleton, List.not_mem_nil,
    or_false] at he
  rcases he with rfl | rfl | rfl | rfl | rfl | rfl | rfl | rfl | rfl | rfl | rfl <;>
    refine ⟨?_, fun m hv hc => ?_⟩
  all_goals first
    | (simp only [addTool, Server.listSites, Server.getSiteDetails, Server.getSiteOverview,
         Server.listHosts, Server.getHostDetails, Server.getHostsBySite, Server.listDevices,
         Server.getDeviceDetails, Server.getDevicesBySite, Server.listDeployments,
         Server.getDeploymentDetails, NewToolResultJSON]
       repeat' split
       all_goals rfl)
    | skip
  all_goals
    simp [addTool, passesValidation, specParam, specToolTable, specArg, List.lookup] at hv
  all_goals
    simp [addTool, clientError, specParam, specToolTable, specArg, List.lookup] at hc
  all_goals refine ⟨_, rfl, ?_⟩
  all_goals
    simp only [addTool, Server.listSites, Server.getSiteDetails, Server.getSiteOverview,
      Server.listHosts, Server.getHostDetails, Server.getHostsBySite, Server.listDevices,
      Server.getDeviceDetails, Server.getDevicesBySite, Server.listDeployments,
      Server.getDeploymentDetails, NewToolResultJSON, NewToolResultError]
  all_goals try simp only [empty_ne_of_ne hv, Bool.false_eq_true, if_false]
  all_goals split
  all_goals rename_i x tr heq
  all_goals rw [heq] at hc
  all_goals simp only [errorOf, Option.some.injEq, reduceCtorEq] at hc
  all_goals subst hc
  all_goals rfl

/-- A witness of C5: `get_site_details` against an upstream answering 404. -/
theorem client_failures_are_tool_errors_witness :
    passesValidation "get_site_details" (requestWith "site_id" "missing") ∧
      (exampleServer.getSiteDetails notFoundWorld (requestWith "site_id" "missing")).err = none ∧
      ∃ action, specAction.lookup "get_site_details" = some action ∧
        (exampleServer.getSiteDetails notFoundWorld (requestWith "site_id" "missing")).result
          = CallToolResult.toolError ("Failed to " ++ action ++ ": " ++
              "failed to get site details: API error: 404 - \x7b\"error\":\"not found\"\x7d") :=
  ⟨by decide,
   (client_failures_are_tool_errors exampleServer notFoundWorld (requestWith "site_id" "missing")
      (addTool "get_site_details" "Get detailed information about a specific site"
        exampleServer.getSiteDetails
        [("site_id", [("type", "string"), ("description", "Site ID")])])
      (by simp [Server.registerTools])).1,
   (client_failures_are_tool_errors exampleServer notFoundWorld (requestWith "site_id" "missing")
      (addTool "get_site_details" "Get detailed information about a specific site"
        exampleServer.getSiteDetails
        [("site_id", [("type", "string"), ("description", "Site ID")])])
      (by simp [Server.registerTools])).2 _ (by decide) rfl⟩

/-! ## Upstream HTTP errors (C6) -/

theorem contains_append_left (a b piece : String) (h : Contains b piece) :
    Contains (a ++ b) piece := by
  obtain ⟨pre, post, hpp⟩ := h
  refine ⟨a.data ++ pre, post, ?_⟩
  simp [String.data_append, ← hpp, List.append_assoc]

theorem contains_append_right (a b piece : String) (h : Contains a piece) :
    Contains (a ++ b) piece := by
  obtain ⟨pre, post, hpp⟩ := h
  refine ⟨pre, post ++ b.data, ?_⟩
  simp [String.data_append, ← hpp, List.append_assoc]

theorem contains_self (a : String) : Contains a a := ⟨[], [], by simp⟩

/-- C6: for a non-empty `site_id`, when the request is sent and the upstream
answers with a status `>= 400` and body `b`, `get_site_details` returns a nil
protocol-level error and a tool-level error (not a success) whose text holds
the decimal status and the raw body as substrings; nothing is asked of `b` or
of the JSON decoder, because the status is tested before decoding. -/
theorem getSiteDetails_surfaces_upstream_error (s : Server) (w : World) (req : CallToolRequest)
    (siteID : String) (status : Int) (b : String)
    (hid : req.GetString "site_id" "" = siteID) (hne : siteID ≠ "")
    (hnew : w.newRequestErr "GET" (s.unifiClient.baseURL ++ ("/sites/" ++ siteID)) = none)
    (hdo : w.Do (s.unifiClient.buildRequest "GET" ("/sites/" ++ siteID))
      = Except.ok ⟨status, Except.ok b⟩)
    (hs : status ≥ 400) :
    (s.getSiteDetails w req).err = none ∧
      (s.getSiteDetails w req).result
        = CallToolResult.toolError ("Failed to get site details: " ++
            ("failed to get site details: " ++
              ("API error: " ++ toString status ++ " - " ++ b))) ∧
      (s.getSiteDetails w req).result.IsError = true ∧
      ∃ text, (s.getSiteDetails w req).result = CallToolResult.toolError text ∧
        Contains text (toString status) ∧ Contains text b := by
  have hres : s.getSiteDetails w req
      = ⟨CallToolResult.toolError ("Failed to get site details: " ++
            ("failed to get site details: " ++
              ("API error: " ++ toString status ++ " - " ++ b))), none,
          [Event.clientCall "GetSiteDetails",
            Event.httpDo (s.unifiClient.buildRequest "GET" ("/sites/" ++ siteID))]⟩ := by
    simp only [Server.getSiteDetails, hid, empty_ne_of_ne hne, Bool.false_eq_true, if_false,
      Client.GetSiteDetails, Client.doRequest, hnew, hdo, hs, if_true, NewToolResultError,
      fmtInt]
  rw [hres]
  refine ⟨rfl, rfl, rfl, _, rfl, ?_, ?_⟩
  · apply contains_append_left
    apply contains_append_left
    apply contains_append_right
    apply contains_append_right
    apply contains_append_left
    exact contains_self _
  · apply contains_append_left
    apply contains_append_left
    apply contains_append_left
    exact contains_self _

/-- A witness of C6: status 404, body `{"error":"not found"}`, `site_id`
`"missing"`. -/
theorem getSiteDetails_surfaces_upstream_error_witness :
    (requestWith "site_id" "missing").GetString "site_id" "" = "missing" ∧ "missing" ≠ "" ∧
      (404 : Int) ≥ 400 ∧
      (exampleServer.getSiteDetails notFoundWorld (requestWith "site_id" "missing")).err = none ∧
      (exampleServer.getSiteDetails notFoundWorld (requestWith "site_id" "missing")).result
        = CallToolResult.toolError ("Failed to get site details: " ++
            ("failed to get site details: " ++
              ("API error: " ++ "404" ++ " - " ++ "\x7b\"error\":\"not found\"\x7d"))) ∧
      (exampleServer.getSiteDetails notFoundWorld
        (requestWith "site_id" "missing")).result.IsError = true ∧
      ∃ text, (exampleServer.getSiteDetails notFoundWorld
          (requestWith "site_id" "missing")).result = CallToolResult.toolError text ∧
        Contains text "404" ∧ Contains text "\x7b\"error\":\"not found\"\x7d" :=
  ⟨rfl, by decide, by decide,
    getSiteDetails_surfaces_upstream_error exampleServer notFoundWorld
      (requestWith "site_id" "missing") "missing" 404 "\x7b\"error\":\"not found\"\x7d"
      rfl (by decide) rfl rfl (by decide)⟩

/-! ## Site overview (C7) -/

/-- C7: for a non-empty `site_id`, in any world, `get_site_overview` succeeds
exactly when `get_site_details` does; a success of `get_site_details` carries
the site record `r` the client decoded; and then `get_site_overview` returns
the map with exactly the three entries `site_id`, `name`, `description`,
holding `r.ID`, `r.Name`, `r.Description`. -/
theorem getSiteOverview_agrees_with_getSiteDetails (s : Server) (w : World)
    (req : CallToolRequest) (hne : req.GetString "site_id" "" ≠ "") :
    ((s.getSiteOverview w req).result.IsError = false ↔
        (s.getSiteDetails w req).result.IsError = false) ∧
      (∀ data, (s.getSiteDetails w req).result = CallToolResult.json data →
        ∃ r, data = Payload.site r ∧
          (s.unifiClient.GetSiteDetails w (req.GetString "site_id" "")).1 = Except.ok r) ∧
      (∀ r, (s.getSiteDetails w req).result = CallToolResult.json (Payload.site r) →
        (s.getSiteOverview w req).result = CallToolResult.json (Payload.map [
          ("site_id", Value.str r.ID), ("name", Value.str r.Name),
          ("description", Value.str r.Description)]) ∧
        (s.getSiteOverview w req).member "site_id" = some (JSON.str r.ID) ∧
        (s.getSiteOverview w req).member "name" = some (JSON.str r.Name) ∧
        (s.getSiteOverview w req).member "description" = some (JSON.str r.Description)) := by
  simp only [Server.getSiteOverview, Server.getSiteDetails, empty_ne_of_ne hne,
    Bool.false_eq_true, if_false, ToolReturn.member]
  rcases hc : s.unifiClient.GetSiteDetails w (req.GetString "site_id" "") with ⟨r, tr⟩
  cases r with
  | error err => simp [NewToolResultError, CallToolResult.IsError]
  | ok site =>
    simp [NewToolResultJSON, CallToolResult.IsError, Payload.marshal, JSON.member, List.lookup,
      Value.marshal]

/-- A witness of C7: the example site. -/
theorem getSiteOverview_agrees_with_getSiteDetails_witness :
    (requestWith "site_id" "s1").GetString "site_id" "" ≠ "" ∧
      (exampleServer.getSiteDetails okWorld (requestWith "site_id" "s1")).result
        = CallToolResult.json (Payload.site ⟨"s1", "HQ", "head office"⟩) ∧
      (exampleServer.getSiteOverview okWorld (requestWith "site_id" "s1")).result
        = CallToolResult.json (Payload.map [
            ("site_id", Value.str "s1"), ("name", Value.str "HQ"),
            ("description", Value.str "head office")]) :=
  ⟨by decide, rfl,
    ((getSiteOverview_agrees_with_getSiteDetails exampleServer okWorld
      (requestWith "site_id" "s1") (by decide)).2.2 ⟨"s1", "HQ", "head office"⟩ rfl).1⟩

/-! ## The upstream request (C9) -/

theorem buildRequest_eq (c : Client) (path : String) :
    c.buildRequest "GET" path
      = ⟨"GET", c.baseURL ++ path, [("X-API-KEY", c.apiKey), ("Accept", "application/json"),
          ("Content-Type", "application/json")]⟩ := by
  simp [Client.buildRequest, Header.Set]

theorem doRequest_requests_of_new_ok {α : Type} (c : Client) (w : World) (path : String)
    (u : String → Except String α) (h : w.newRequestErr "GET" (c.baseURL ++ path) = none) :
    (c.doRequest w "GET" path u).2 = [Event.httpDo (c.buildRequest "GET" path)] := by
  simp only [Client.doRequest, h]
  repeat' split
  all_goals rfl

theorem doRequest_of_new_err {α : Type} (c : Client) (w : World) (path : String)
    (u : String → Except String α) (m : String)
    (h : w.newRequestErr "GET" (c.baseURL ++ path) = some m) :
    c.doRequest w "GET" path u = (Except.error m, []) := by
  simp only [Client.doRequest, h]

theorem client_traces (c : Client) (w : World) (id : String) :
    (c.ListSites w).2
        = Event.clientCall "ListSites" :: (c.doRequest w "GET" "/sites" w.unmarshalSites).2 ∧
      (c.GetSiteDetails w id).2 = Event.clientCall "GetSiteDetails"
        :: (c.doRequest w "GET" ("/sites/" ++ id) w.unmarshalSite).2 ∧
      (c.ListHosts w).2
        = Event.clientCall "ListHosts" :: (c.doRequest w "GET" "/hosts" w.unmarshalHosts).2 ∧
      (c.GetHostDetails w id).2 = Event.clientCall "GetHostDetails"
        :: (c.doRequest w "GET" ("/hosts/" ++ id) w.unmarshalHost).2 ∧
      (c.ListDevices w).2 = Event.clientCall "ListDevices"
        :: (c.doRequest w "GET" "/devices" w.unmarshalDevices).2 ∧
      (c.GetDeviceDetails w id).2 = Event.clientCall "GetDeviceDetails"
        :: (c.doRequest w "GET" ("/devices/" ++ id) w.unmarshalDevice).2 ∧
      (c.ListDeployments w).2 = Event.clientCall "ListDeployments"
        :: (c.doRequest w "GET" "/deployments" w.unmarshalDeployments).2 ∧
      (c.GetDeploymentDetails w id).2 = Event.clientCall "GetDeploymentDetails"
        :: (c.doRequest w "GET" ("/deployments/" ++ id) w.unmarshalDeployment).2 := by
  simp only [Client.ListSites, Client.GetSiteDetails, Client.ListHosts, Client.GetHostDetails,
    Client.ListDevices, Client.GetDeviceDetails, Client.ListDeployments,
    Client.GetDeploymentDetails]
  refine ⟨?_, ?_, ?_, ?_, ?_, ?_, ?_, ?_⟩
  all_goals split
  all_goals simp_all

/-- The upstream requests of a trace with a single call of the HTTP client are
those the client sends for that call. -/
theorem upstream_of_single_call (w : World) (name : String) (r : Request) :
    upstreamRequests w [Event.clientCall name, Event.httpDo r] = w.sent r := by
  simp [upstreamRequests]

/-- The trace of a validated call, when the request can be built: the client
method is entered and the HTTP client is called once. -/
theorem trace_of_client_trace (c : Client) (w : World) (path name : String) {α : Type}
    (u : String → Except String α) (tr : List Event)
    (hnew : w.newRequestErr "GET" (c.baseURL ++ path) = none)
    (htr : tr = Event.clientCall name :: (c.doRequest w "GET" path u).2) :
    tr = [Event.clientCall name, Event.httpDo ⟨"GET", c.baseURL ++ path,
      [("X-API-KEY", c.apiKey), ("Accept", "application/json"),
       ("Content-Type", "application/json")]⟩] := by
  rw [htr, doRequest_requests_of_new_ok c w path u hnew, buildRequest_eq]

/-- The calls of the HTTP client and the upstream requests of a validated
call, when the request can be built. -/
theorem requests_of_client_trace (c : Client) (w : World) (path name : String) {α : Type}
    (u : String → Except String α) (tr : List Event)
    (hnew : w.newRequestErr "GET" (c.baseURL ++ path) = none)
    (htr : tr = Event.clientCall name :: (c.doRequest w "GET" path u).2) :
    doCalls tr = [⟨"GET", c.baseURL ++ path, [("X-API-KEY", c.apiKey),
        ("Accept", "application/json"), ("Content-Type", "application/json")]⟩] ∧
      upstreamRequests w tr = w.sent ⟨"GET", c.baseURL ++ path, [("X-API-KEY", c.apiKey),
        ("Accept", "application/json"), ("Content-Type", "application/json")]⟩ := by
  rw [trace_of_client_trace c w path name u tr hnew htr]
  exact ⟨rfl, upstream_of_single_call w name _⟩

/-- C9, amended: for a server built on `NewClient apiKey`, every tool call that
passes parameter validation makes at most one call to the HTTP client. When
`http.NewRequestWithContext` accepts the URL string, it makes exactly one, with
a request built with method GET from the URL string `BaseURL` followed by the
resource path of the tool (the identifier inserted unchanged into that string;
`/hosts` and `/devices` alone for the by-site tools) and carrying the headers
`X-API-KEY` (the API key), `Accept` and `Content-Type` (`application/json`);
the upstream requests issued are those the HTTP client sends for that one call.
When the request is refused at construction, the HTTP client is not called, no
upstream request is issued and the result is a tool-level error. -/
theorem validated_call_issues_one_get (apiKey : String) (w : World) (req : CallToolRequest) :
    ∀ e ∈ (NewServer (NewClient apiKey)).registerTools, ∀ path,
      (specPath (specArg e.1.Name req)).lookup e.1.Name = some path →
      passesValidation e.1.Name req →
      (w.newRequestErr "GET" (BaseURL ++ path) = none →
        doCalls (e.2 w req).trace
            = [⟨"GET", BaseURL ++ path, [("X-API-KEY", apiKey), ("Accept", "application/json"),
                ("Content-Type", "application/json")]⟩] ∧
          upstreamRequests w (e.2 w req).trace
            = w.sent ⟨"GET", BaseURL ++ path, [("X-API-KEY", apiKey),
                ("Accept", "application/json"), ("Content-Type", "application/json")]⟩) ∧
      (∀ m, w.newRequestErr "GET" (BaseURL ++ path) = some m →
        doCalls (e.2 w req).trace = [] ∧ upstreamRequests w (e.2 w req).trace = [] ∧
          (e.2 w req).result.IsError = true) := by
  intro e he path hpath hv
  simp only [Server.registerTools, List.mem_cons, List.mem_singleton, List.not_mem_nil,
    or_false] at he
  rcases he with rfl | rfl | rfl | rfl | rfl | rfl | rfl | rfl | rfl | rfl | rfl
  all_goals
    simp [addTool, passesValidation, specParam, specToolTable, specArg, List.lookup] at hv
  all_goals
    simp [addTool, specPath, specParam, specToolTable, specArg, List.lookup] at hpath
  all_goals subst hpath
  all_goals refine ⟨fun hnew => ?_, fun m hnew => ?_⟩
  all_goals
    simp only [addTool, Server.listSites, Server.getSiteDetails, Server.getSiteOverview,
      Server.listHosts, Server.getHostDetails, Server.getHostsBySite, Server.listDevices,
      Server.getDeviceDetails, Server.getDevicesBySite, Server.listDeployments,
      Server.getDeploymentDetails, NewToolResultJSON, NewToolResultError, NewServer]
  all_goals try simp only [empty_ne_of_ne hv, Bool.false_eq_true, if_false]
  all_goals first
    | (have hd := fun {α : Type} (u : String → Except String α) =>
         doRequest_of_new_err (NewClient apiKey) w _ u m hnew
       simp only [Client.ListSites, Client.GetSiteDetails, Client.ListHosts,
         Client.GetHostDetails, Client.ListDevices, Client.GetDeviceDetails,
         Client.ListDeployments, Client.GetDeploymentDetails, hd]
       exact ⟨rfl, rfl, rfl⟩)
    | split
  all_goals rename_i x tr heq
  all_goals have htr := (congrArg Prod.snd heq).symm
  all_goals
    first
      | exact requests_of_client_trace (NewClient apiKey) w _ _ _ tr hnew
          (htr.trans (client_traces (NewClient apiKey) w "").1)
      | exact requests_of_client_trace (NewClient apiKey) w _ _ _ tr hnew
          (htr.trans (client_traces (NewClient apiKey) w _).2.1)
      | exact requests_of_client_trace (NewClient apiKey) w _ _ _ tr hnew
          (htr.trans (client_traces (NewClient apiKey) w "").2.2.1)
      | exact requests_of_client_trace (NewClient apiKey) w _ _ _ tr hnew
          (htr.trans (client_traces (NewClient apiKey) w _).2.2.2.1)
      | exact requests_of_client_trace (NewClient apiKey) w _ _ _ tr hnew
          (htr.trans (client_traces (NewClient apiKey) w "").2.2.2.2.1)
      | exact requests_of_client_trace (NewClient apiKey) w _ _ _ tr hnew
          (htr.trans (client_traces (NewClient apiKey) w _).2.2.2.2.2.1)
      | exact requests_of_client_trace (NewClient apiKey) w _ _ _ tr hnew
          (htr.trans (client_traces (NewClient apiKey) w "").2.2.2.2.2.2.1)
      | exact requests_of_client_trace (NewClient apiKey) w _ _ _ tr hnew
          (htr.trans (client_traces (NewClient apiKey) w _).2.2.2.2.2.2.2)

/-- A witness of C9 as amended: `get_site_details` for `"a b"` calls the HTTP
client once, with the URL string holding the identifier as given; the one
upstream request carries the identifier percent-encoded; and when the upstream
answers with a redirect, the same single call sends two upstream requests. -/
theorem validated_call_issues_one_get_witness :
    passesValidation "get_site_details" (requestWith "site_id" "a b") ∧
      okWorld.newRequestErr "GET" (BaseURL ++ "/sites/a b") = none ∧
      doCalls (exampleServer.getSiteDetails okWorld (requestWith "site_id" "a b")).trace
        = [⟨"GET", "https://api.ui.com/v1/sites/a b", [("X-API-KEY", "k"),
            ("Accept", "application/json"), ("Content-Type", "application/json")]⟩] ∧
      upstreamRequests okWorld
          (exampleServer.getSiteDetails okWorld (requestWith "site_id" "a b")).trace
        = [⟨"GET", "https://api.ui.com/v1/sites/a%20b"⟩] ∧
      upstreamRequests redirectWorld
          (exampleServer.getSiteDetails redirectWorld (requestWith "site_id" "a b")).trace
        = [⟨"GET", "https://api.ui.com/v1/sites/a%20b"⟩,
           ⟨"GET", "https://api.ui.com/v1/sites/a%20b/"⟩] :=
  ⟨by decide, rfl,
    ((validated_call_issues_one_get "k" okWorld (requestWith "site_id" "a b")
      (addTool "get_site_details" "Get detailed information about a specific site"
        exampleServer.getSiteDetails
        [("site_id", [("type", "string"), ("description", "Site ID")])])
      (by simp [Server.registerTools, exampleServer]) "/sites/a b" rfl (by decide)).1 rfl).1,
    ((validated_call_issues_one_get "k" okWorld (requestWith "site_id" "a b")
      (addTool "get_site_details" "Get detailed information about a specific site"
        exampleServer.getSiteDetails
        [("site_id", [("type", "string"), ("description", "Site ID")])])
      (by simp [Server.registerTools, exampleServer]) "/sites/a b" rfl (by decide)).1 rfl).2,
    ((validated_call_issues_one_get "k" redirectWorld (requestWith "site_id" "a b")
      (addTool "get_site_details" "Get detailed information about a specific site"
        exampleServer.getSiteDetails
        [("site_id", [("type", "string"), ("description", "Site ID")])])
      (by simp [Server.registerTools, exampleServer]) "/sites/a b" rfl (by decide)).1 rfl).2⟩

/-- C9 as stated fails, in three ways. With the non-empty `site_id` `"\n"`,
`get_site_details` passes validation, but the URL holds a control character,
request construction fails and no upstream request is issued. With `site_id`
`"a b"`, the one upstream request does not carry the identifier unchanged: its
URL is not the base URL followed by `/sites/a b`. And when the upstream answers
with a redirect, the call for `"s1"` issues two upstream requests. So not every
validated call issues exactly one upstream request. -/
theorem validated_call_without_request :
    passesValidation "get_site_details" (requestWith "site_id" "\n") ∧
      exampleServer.getSiteDetails okWorld (requestWith "site_id" "\n")
        = ⟨CallToolResult.toolError ("Failed to get site details: failed to get site details: "
            ++ "parse \"https://api.ui.com/v1/sites/\\n\": "
            ++ "net/url: invalid control character in URL"), none,
          [Event.clientCall "GetSiteDetails"]⟩ ∧
      upstreamRequests okWorld
          (exampleServer.getSiteDetails okWorld (requestWith "site_id" "\n")).trace = [] ∧
      (passesValidation "get_site_details" (requestWith "site_id" "a b") ∧
        upstreamRequests okWorld
            (exampleServer.getSiteDetails okWorld (requestWith "site_id" "a b")).trace
          = [⟨"GET", "https://api.ui.com/v1/sites/a%20b"⟩] ∧
        "https://api.ui.com/v1/sites/a%20b" ≠ BaseURL ++ "/sites/a b") ∧
      (passesValidation "get_site_details" (requestWith "site_id" "s1") ∧
        upstreamRequests redirectWorld
            (exampleServer.getSiteDetails redirectWorld (requestWith "site_id" "s1")).trace
          = [⟨"GET", "https://api.ui.com/v1/sites/s1"⟩,
             ⟨"GET", "https://api.ui.com/v1/sites/s1/"⟩]) ∧
      ¬ (∀ (w : World) (req : CallToolRequest), ∀ e ∈ exampleServer.registerTools,
          passesValidation e.1.Name req →
            (upstreamRequests w (e.2 w req).trace).length = 1) := by
  refine ⟨by decide, rfl, rfl, ⟨by decide, rfl, by decide⟩, ⟨by decide, rfl⟩, fun h => ?_⟩
  have h1 := h okWorld (requestWith "site_id" "\n")
    (addTool "get_site_details" "Get detailed information about a specific site"
      exampleServer.getSiteDetails
      [("site_id", [("type", "string"), ("description", "Site ID")])])
    (by simp [Server.registerTools]) (by decide)
  revert h1
  decide

/-! ## The tool registry (C10) -/

/-- C10: `registerTools` registers exactly 11 tools, with the eleven names
listed and no name twice; the parameters each tool declares are those of the
specification's tool table (none for the `list_*` tools, exactly one for every
other tool); every declared parameter has type `string`; and the one declared
parameter of a tool is the name its handler tests: the handler answers
`"<param> parameter is required"` exactly when that parameter is absent, not a
string, or empty. -/
theorem registry_declares_the_eleven_tools (s : Server) :
    s.registerTools.map (fun e => e.1.Name)
        = ["list_sites", "get_site_details", "get_site_overview", "list_hosts",
           "get_host_details", "get_hosts_by_site", "list_devices", "get_device_details",
           "get_devices_by_site", "list_deployments", "get_deployment_details"] ∧
      s.registerTools.length = 11 ∧
      (s.registerTools.map (fun e => e.1.Name)).Nodup ∧
      s.registerTools.map (fun e => (e.1.Name, e.1.InputSchema.Properties.map Prod.fst))
        = specToolTable.map (fun t => (t.1, t.2.toList)) ∧
      (∀ e ∈ s.registerTools,
        e.1.Name ∈ ["list_sites", "list_hosts", "list_devices", "list_deployments"] →
          e.1.InputSchema.Properties = []) ∧
      (∀ e ∈ s.registerTools, ∀ prop ∈ e.1.InputSchema.Properties,
        prop.2.lookup "type" = some "string") ∧
      (∀ e ∈ s.registerTools, ∀ p, e.1.InputSchema.Properties.map Prod.fst = [p] →
        ∀ w req, (e.2 w req).result = CallToolResult.toolError (p ++ " parameter is required")
          ↔ req.GetString p "" = "") := by
  refine ⟨rfl, rfl, ?_, rfl, ?_, ?_, ?_⟩
  · have hnames : s.registerTools.map (fun e => e.1.Name)
        = ["list_sites", "get_site_details", "get_site_overview", "list_hosts",
           "get_host_details", "get_hosts_by_site", "list_devices", "get_device_details",
           "get_devices_by_site", "list_deployments", "get_deployment_details"] := rfl
    rw [hnames]
    decide
  · intro e he
    simp only [Server.registerTools, List.mem_cons, List.mem_singleton, List.not_mem_nil,
      or_false] at he
    rcases he with rfl | rfl | rfl | rfl | rfl | rfl | rfl | rfl | rfl | rfl | rfl <;>
      simp [addTool]
  · intro e he
    simp only [Server.registerTools, List.mem_cons, List.mem_singleton, List.not_mem_nil,
      or_false] at he
    rcases he with rfl | rfl | rfl | rfl | rfl | rfl | rfl | rfl | rfl | rfl | rfl <;>
      simp [addTool, List.lookup]
  · intro e he p hp w req
    have hspec : specParam e.1.Name = some p := by
      simp only [Server.registerTools, List.mem_cons, List.mem_singleton, List.not_mem_nil,
        or_false] at he
      rcases he with rfl | rfl | rfl | rfl | rfl | rfl | rfl | rfl | rfl | rfl | rfl <;>
        simp [addTool] at hp <;> subst hp <;> rfl
    have h := handler_checks_param s w req e he p hspec
    constructor
    · intro hres
      by_contra hne
      exact h.2 hne hres
    · intro hg
      rw [h.1 hg]

end Unifi
